import Mathlib

/-
  Verification development for the TelegramCalls plugin
  (index.ts, settings.tsx of the Deeplication/TelegramCalls repository).

  The development is a shallow embedding: the JavaScript/TypeScript values
  and functions that the claims talk about are translated into executable
  Lean definitions, and the claims are settled as theorems about those
  definitions.  Stateful or effectful code is embedded by explicit state
  passing and by event traces; code that can throw is embedded in the
  Except monad, with evaluation of a thrown exception represented by
  Except.error.
-/

/- ===================================================================
   Part 1: the module registry and the Metro locators
   (index.ts, getModules lines 27-37, findByProps lines 39-51,
    findByDisplayName lines 53-60).
   =================================================================== -/

/--
A JavaScript value as observed by the locator functions.  The code only
distinguishes: null or undefined; a function (typeof is not "object", but
it can carry displayName and name fields, as React components do); any
other primitive; and a plain object.  For an object we record the set of
property names visible to the JavaScript membership operator, split into
own property names and names inherited through the prototype chain, the
value of its default property (enull when absent), and the values of its
displayName and name fields when they are strings.
-/
inductive EVal where
  | enull
  | eprim
  | efun (dspName : Option String) (nmF : Option String)
  | eobj (own : List String) (chain : List String) (dflt : EVal)
      (dspName : Option String) (nmF : Option String)
deriving DecidableEq

/--
A record of the module registry.  Reading the exports field of a module
is a property access that a hostile host can make throw (a getter or a
Proxy); exportsAccess is the outcome of that access, with Except.error
standing for a thrown exception.  selfVal is the module record itself
seen as a value, used by the fallback of the exports access.
-/
inductive ModRec where
  | mnull
  | mrec (exportsAccess : Except Unit EVal) (selfVal : EVal)

/--
The expression that both locators evaluate per module:
the exports field of the module when it is not null or undefined,
otherwise the module itself (index.ts lines 42 and 55).  A throwing
exports getter makes the whole access throw.
-/
def getExp : ModRec → Except Unit EVal
  | ModRec.mnull => Except.ok EVal.enull
  | ModRec.mrec acc selfVal =>
    match acc with
    | Except.error u => Except.error u
    | Except.ok EVal.enull => Except.ok selfVal
    | Except.ok v => Except.ok v

/--
One of the four registry access points probed by getModules
(index.ts line 30): a falsy candidate, an array of modules, a non-array
object whose values are the modules, or a truthy value that is neither
an array nor an object (skipped by the code).
-/
inductive RegCandidate where
  | absent
  | arr (mods : List ModRec)
  | omap (mods : List ModRec)
  | otherTruthy

/-- The global access points getModules probes, in probe order:
the modules field of the global object, the result of calling getModules
on the Metro require object, the modules field of the Metro require
object, and the modules field of the secondary cache object. -/
structure GlobalEnv where
  gModules : RegCandidate
  rGetModules : RegCandidate
  rModules : RegCandidate
  cModules : RegCandidate

/-- What a single candidate contributes: an array is returned as is, an
object contributes its values, anything else falls through. -/
def pickCandidate : RegCandidate → Option (List ModRec)
  | RegCandidate.absent => none
  | RegCandidate.arr mods => some mods
  | RegCandidate.omap mods => some mods
  | RegCandidate.otherTruthy => none

/-- getModules (index.ts lines 27-37): first candidate that is an array
or an object wins; an empty list when none does. -/
def getModules (g : GlobalEnv) : List ModRec :=
  match pickCandidate g.gModules with
  | some ms => ms
  | none =>
    match pickCandidate g.rGetModules with
    | some ms => ms
    | none =>
      match pickCandidate g.rModules with
      | some ms => ms
      | none => (pickCandidate g.cModules).getD []

/-- The membership test the code performs per required name: the
JavaScript membership operator sees own properties and properties
inherited through the prototype chain; it is false on anything that is
not an object (the code only reaches it after the typeof guard). -/
def hasAllIn (props : List String) : EVal → Bool
  | EVal.eobj own chain _ _ _ =>
      props.all (fun p => own.contains p || chain.contains p)
  | _ => false

/-- The qualification the spec sentence of claim C6 literally states:
the own property set of the object is a superset of the required
members. -/
def hasAllOwn (props : List String) : EVal → Bool
  | EVal.eobj own _ _ _ _ => props.all own.contains
  | _ => false

/-- The per-module candidate computed by the body of the findByProps
loop (index.ts lines 42-47): the export itself when every required name
is in it, else its default sub-object when that is an object with every
required name in it, else nothing. -/
def codeCandidate (props : List String) (exp : EVal) : Option EVal :=
  if hasAllIn props exp then some exp
  else
    match exp with
    | EVal.eobj _ _ dflt _ _ =>
        if hasAllIn props dflt then some dflt else none
    | _ => none

/-- The body of one iteration of findByProps, inside its try block: the
exports access can throw, everything after it is total. -/
def fbpBody (props : List String) (m : ModRec) : Except Unit (Option EVal) :=
  match getExp m with
  | Except.error u => Except.error u
  | Except.ok exp => Except.ok (codeCandidate props exp)

/-- The findByProps scan over a list of modules (index.ts lines 40-50).
A module whose body throws is skipped: the catch block is the branch
that recurses on an Except.error result. -/
def findByPropsList (props : List String) : List ModRec → Except Unit (Option EVal)
  | [] => Except.ok none
  | m :: rest =>
    match fbpBody props m with
    | Except.error _ => findByPropsList props rest
    | Except.ok (some v) => Except.ok (some v)
    | Except.ok none => findByPropsList props rest

/-- findByProps (index.ts lines 39-51). -/
def findByProps (props : List String) (g : GlobalEnv) : Except Unit (Option EVal) :=
  findByPropsList props (getModules g)

/-- The candidate findByDisplayName inspects per module (index.ts
line 56): the default sub-value of the export when the export is an
object with a non-null default, otherwise the export itself. -/
def displayCand : EVal → EVal
  | e@(EVal.eobj _ _ EVal.enull _ _) => e
  | EVal.eobj _ _ d _ _ => d
  | v => v

/-- The name test of findByDisplayName (index.ts line 57): displayName
or name equals the searched string; false on null and non-function
primitives. -/
def nameMatches (nm : String) : EVal → Bool
  | EVal.eobj _ _ _ dn nf => dn == some nm || nf == some nm
  | EVal.efun dn nf => dn == some nm || nf == some nm
  | _ => false

/-- The findByDisplayName scan (index.ts lines 54-58).  Unlike
findByProps it has no try block: a throwing exports access propagates
out of the function. -/
def findByDisplayNameList (nm : String) : List ModRec → Except Unit (Option EVal)
  | [] => Except.ok none
  | m :: rest =>
    match getExp m with
    | Except.error u => Except.error u
    | Except.ok exp =>
      if nameMatches nm (displayCand exp) then Except.ok (some (displayCand exp))
      else findByDisplayNameList nm rest

/-- findByDisplayName (index.ts lines 53-60). -/
def findByDisplayName (nm : String) (g : GlobalEnv) : Except Unit (Option EVal) :=
  findByDisplayNameList nm (getModules g)

/-- Modelled from the spec, for the comparison claim C6: scan the
registry in order and return the first export, or its default
sub-object, whose qualification holds, and absent when no export
qualifies.  The qualification is a parameter; a module whose accessor
throws is skipped, as the error-handling sentence of the spec requires. -/
def specCandidate (qual : List String → EVal → Bool) (props : List String)
    (exp : EVal) : Option EVal :=
  if qual props exp then some exp
  else
    match exp with
    | EVal.eobj _ _ dflt _ _ => if qual props dflt then some dflt else none
    | _ => none

/-- Modelled from the spec: the first-match scan, parametric in the
qualification predicate. -/
def specSearchWith (qual : List String → EVal → Bool) (props : List String) :
    List ModRec → Option EVal
  | [] => none
  | m :: rest =>
    match getExp m with
    | Except.error _ => specSearchWith qual props rest
    | Except.ok exp =>
      match specCandidate qual props exp with
      | some v => some v
      | none => specSearchWith qual props rest

/-- The search claim C6 literally states: qualification by the own
property set. -/
def specOwnFirst (props : List String) (mods : List ModRec) : Option EVal :=
  specSearchWith hasAllOwn props mods

/-- The amended search: qualification by the property set visible to
the JavaScript membership operator, own or inherited. -/
def specInFirst (props : List String) (mods : List ModRec) : Option EVal :=
  specSearchWith hasAllIn props mods

/- ===================================================================
   Part 2: the Settings stores
   (index.ts lines 63-69; settings.tsx lines 28-42).
   =================================================================== -/

/-- The five boolean flags of the settings mapping, in source order. -/
structure SettingsMap where
  forceModeNormalOnWired : Bool
  keepStereoMedia : Bool
  disableAttenuation : Bool
  relaxMicDSP : Bool
  verboseLogs : Bool
deriving DecidableEq

/-- The default flag values, shared by both literals in the source
(index.ts lines 63-69 and settings.tsx lines 28-34). -/
def defaultSettings : SettingsMap :=
  { forceModeNormalOnWired := true
    keepStereoMedia := true
    disableAttenuation := true
    relaxMicDSP := true
    verboseLogs := false }

/-- A settings key, for the presentation layer update function. -/
inductive SettingKey where
  | forceModeNormalOnWired
  | keepStereoMedia
  | disableAttenuation
  | relaxMicDSP
  | verboseLogs
deriving DecidableEq

/-- Keyed update of one flag. -/
def setFlag (s : SettingsMap) (k : SettingKey) (v : Bool) : SettingsMap :=
  match k with
  | SettingKey.forceModeNormalOnWired => { s with forceModeNormalOnWired := v }
  | SettingKey.keepStereoMedia => { s with keepStereoMedia := v }
  | SettingKey.disableAttenuation => { s with disableAttenuation := v }
  | SettingKey.relaxMicDSP => { s with relaxMicDSP := v }
  | SettingKey.verboseLogs => { s with verboseLogs := v }

/--
The two settings objects that actually exist in the process.
engineSettings is the module-local const Settings of index.ts
(lines 63-69), the one every policy decision reads.  uiSettings is the
object the presentation layer creates and mutates, stored on the global
object under the key double-underscore TelegramCallsSettings
(settings.tsx line 28).  Nothing in the source ever links the two.
-/
structure ProcessSettings where
  engineSettings : SettingsMap
  uiSettings : SettingsMap
deriving DecidableEq

/-- Process start: both literals evaluate to the same default flags,
as two separate objects. -/
def initialProcess : ProcessSettings :=
  { engineSettings := defaultSettings, uiSettings := defaultSettings }

/-- The upd function of the settings form (settings.tsx lines 39-42):
it assigns into the global settings object of settings.tsx.  The
module-local object of index.ts is untouched. -/
def presentationUpd (p : ProcessSettings) (k : SettingKey) (v : Bool) : ProcessSettings :=
  { p with uiSettings := setFlag p.uiSettings k v }

/-- Every read the policy engine performs goes to the module-local
Settings object of index.ts. -/
def engineReads (p : ProcessSettings) : SettingsMap :=
  p.engineSettings

/- ===================================================================
   Part 3: capability handles and policy action traces
   (index.ts lines 76-164 and 224-237).

   The capability constants of index.ts lines 76-89 are bound once when
   the module is evaluated; an Env value is that one-time binding.  The
   stereo output control is deliberately NOT part of Env as a handle:
   preferStereoOutput (lines 135-145) runs a registry search on every
   invocation, so Env instead records the stable outcome of the two
   searches it performs (the registry does not change between reloads).
   Each policy action is embedded as the trace of host invocations it
   performs, in order; a discovery event records one findByProps call.
   =================================================================== -/

/-- One observable step of a policy action: a registry search or a
host capability method invocation with its argument. -/
inductive Ev where
  | discovery (props : List String)
  | setAttenuation (n : Nat)
  | setChannelCount (n : Nat)
  | setSampleRate (n : Nat)
  | setEchoCancellation (b : Bool)
  | setNoiseSuppression (b : Bool)
  | setAutomaticGainControl (b : Bool)
  | setOpusEncoderEnableFEC (b : Bool)
  | setOpusBitrate (n : Nat)
  | setMode (n : Nat)
  | isHeadsetConnectedQ
  | isInCallQ
deriving DecidableEq

/-- The voice state capability: whether the bound object has an
isInCall method, and what that method returns. -/
structure VoiceCap where
  hasIsInCall : Bool
  inCall : Bool
deriving DecidableEq

/-- The attenuation capability: whether the bound object has a truthy
setAttenuation method (the code guards on it, line 111). -/
structure AttCap where
  hasSetAttenuation : Bool
deriving DecidableEq

/-- The media engine capability: which of the five optionally-called
methods exist (lines 124-128), and which of them throw when called.  A
throw is caught by the try block of relaxMicProcessing, so it cuts the
rest of that block short; a throw of the last call has no observable
effect beyond logging and is not modelled. -/
structure MediaCap where
  hasEC : Bool
  ecThrows : Bool
  hasNS : Bool
  nsThrows : Bool
  hasAGC : Bool
  agcThrows : Bool
  hasFEC : Bool
  fecThrows : Bool
  hasBitrate : Bool
deriving DecidableEq

/-- The audio routing bridge: whether it has a setMode method. -/
structure AMCap where
  hasSetMode : Bool
deriving DecidableEq

/-- The device connectivity capability: whether it has an
isHeadsetConnected method, whether that method throws (caught, treated
as not wired), and what it reports. -/
structure DevCap where
  hasIsHeadsetConnected : Bool
  queryThrows : Bool
  headset : Bool
deriving DecidableEq

/-- An object found by the stereo output searches: which of the two
output methods it offers and whether the channel count call throws
(caught by the try of preferStereoOutput, skipping the rest). -/
structure StereoCap where
  hasSetChannelCount : Bool
  sccThrows : Bool
  hasSetSampleRate : Bool
deriving DecidableEq

/-- The one-time binding of the capability constants (index.ts lines
76-89), plus the stable outcomes of the two registry searches that
preferStereoOutput performs on each invocation: stereoPrimary for the
search by setChannelCount and setSampleRate, stereoFallback for the
search by setOutputConfig. -/
structure Env where
  voiceStore : Option VoiceCap
  mediaEngine : Option MediaCap
  attenuationStore : Option AttCap
  audioManager : Option AMCap
  deviceManager : Option DevCap
  stereoPrimary : Option StereoCap
  stereoFallback : Option StereoCap
deriving DecidableEq

/-- ensureMediaStreamNotDucked (lines 109-118): nothing without a bound
attenuation store with a setAttenuation method, else one request for
zero percent attenuation. -/
def ensureMediaStreamNotDucked (att : Option AttCap) : List Ev :=
  match att with
  | none => []
  | some a => if a.hasSetAttenuation then [Ev.setAttenuation 0] else []

/-- The two guarded calls on the found player object (lines 139-140):
the channel count call when present, then, unless that call threw, the
sample rate call when present. -/
def playerCalls (p : StereoCap) : List Ev :=
  if p.hasSetChannelCount then
    Ev.setChannelCount 2 ::
      (if p.sccThrows then []
       else if p.hasSetSampleRate then [Ev.setSampleRate 48000] else [])
  else if p.hasSetSampleRate then [Ev.setSampleRate 48000] else []

/-- preferStereoOutput (lines 135-145): one registry search on every
invocation, a second one when the first finds nothing, then the two
guarded calls on whatever was found. -/
def preferStereoOutput (sp sf : Option StereoCap) : List Ev :=
  match sp with
  | some p => Ev.discovery ["setChannelCount", "setSampleRate"] :: playerCalls p
  | none =>
    match sf with
    | some p =>
        Ev.discovery ["setChannelCount", "setSampleRate"] ::
          Ev.discovery ["setOutputConfig"] :: playerCalls p
    | none =>
        [Ev.discovery ["setChannelCount", "setSampleRate"],
         Ev.discovery ["setOutputConfig"]]

/-- Step five of relaxMicProcessing (line 128): the bitrate call. -/
def micStep5 (m : MediaCap) : List Ev :=
  if m.hasBitrate then [Ev.setOpusBitrate 64000] else []

/-- Step four (line 127): enable forward error correction, then the
rest unless the call threw. -/
def micStep4 (m : MediaCap) : List Ev :=
  if m.hasFEC then
    Ev.setOpusEncoderEnableFEC true :: (if m.fecThrows then [] else micStep5 m)
  else micStep5 m

/-- Step three (line 126): disable automatic gain control. -/
def micStep3 (m : MediaCap) : List Ev :=
  if m.hasAGC then
    Ev.setAutomaticGainControl false :: (if m.agcThrows then [] else micStep4 m)
  else micStep4 m

/-- Step two (line 125): disable noise suppression. -/
def micStep2 (m : MediaCap) : List Ev :=
  if m.hasNS then
    Ev.setNoiseSuppression false :: (if m.nsThrows then [] else micStep3 m)
  else micStep3 m

/-- Step one (line 124): disable echo cancellation. -/
def micStep1 (m : MediaCap) : List Ev :=
  if m.hasEC then
    Ev.setEchoCancellation false :: (if m.ecThrows then [] else micStep2 m)
  else micStep2 m

/-- relaxMicProcessing (lines 120-133): nothing without a media engine,
else the five optional calls with the try block cutting the sequence at
the first throw. -/
def relaxMicProcessing (me : Option MediaCap) : List Ev :=
  match me with
  | none => []
  | some m => micStep1 m

/-- safeSetAudioModeNormal (lines 98-107): one setMode request for the
normal mode code zero when the bridge is bound with a setMode method. -/
def safeSetAudioModeNormal (am : Option AMCap) : List Ev :=
  match am with
  | none => []
  | some a => if a.hasSetMode then [Ev.setMode 0] else []

/-- isWiredHeadphones (lines 91-96): the query trace and the boolean
result; a missing capability or method, or a caught throw, reports not
wired. -/
def isWiredHeadphones (dm : Option DevCap) : List Ev × Bool :=
  match dm with
  | none => ([], false)
  | some d =>
    if d.hasIsHeadsetConnected then
      ([Ev.isHeadsetConnectedQ], if d.queryThrows then false else d.headset)
    else ([], false)

/-- The guarded routing branch of onCallStart (line 151): the wired
query runs only when the flag is on, and the setMode request only when
the query reported wired. -/
def wiredModeBranch (dm : Option DevCap) (am : Option AMCap) : List Ev :=
  (isWiredHeadphones dm).1 ++
    (if (isWiredHeadphones dm).2 then safeSetAudioModeNormal am else [])

/-- onCallStart (lines 147-152): the four flag-guarded actions in
source order. -/
def onCallStart (env : Env) (s : SettingsMap) : List Ev :=
  (if s.disableAttenuation then ensureMediaStreamNotDucked env.attenuationStore else []) ++
  (if s.keepStereoMedia then preferStereoOutput env.stereoPrimary env.stereoFallback else []) ++
  (if s.relaxMicDSP then relaxMicProcessing env.mediaEngine else []) ++
  (if s.forceModeNormalOnWired then wiredModeBranch env.deviceManager env.audioManager else [])

/-- One tick of the watchdog interval callback (lines 228-232): the
guard evaluates the optional chain on the voice store; when the store is
unbound or has no isInCall method the chain yields undefined without any
invocation and the tick returns; when bound the query runs, and only a
truthy in-call report lets the two guarded re-applications run. -/
def watchdogTick (env : Env) (s : SettingsMap) : List Ev :=
  match env.voiceStore with
  | none => []
  | some vs =>
    if vs.hasIsInCall then
      Ev.isInCallQ ::
        (if vs.inCall then
          (if s.disableAttenuation then ensureMediaStreamNotDucked env.attenuationStore else []) ++
          (if s.keepStereoMedia then preferStereoOutput env.stereoPrimary env.stereoFallback else [])
        else [])
    else []

/-- The repeating timer: its fixed period in milliseconds and its tick
behaviour. -/
structure Watchdog where
  periodMs : Nat
  tick : Env → SettingsMap → List Ev

/-- startWatchdog (lines 226-233): a single interval with a period of
2000 milliseconds whose callback is the tick above. -/
def startWatchdog : Watchdog :=
  { periodMs := 2000, tick := watchdogTick }

/-- Event class: an attenuation request. -/
def isAttEv : Ev → Bool
  | Ev.setAttenuation _ => true
  | _ => false

/-- Event class: a channel count or sample rate request. -/
def isStereoSetEv : Ev → Bool
  | Ev.setChannelCount _ => true
  | Ev.setSampleRate _ => true
  | _ => false

/-- Event class: a microphone signal-processing change (echo
cancellation, noise suppression, gain control, forward error
correction, or encoder bitrate). -/
def isMicEv : Ev → Bool
  | Ev.setEchoCancellation _ => true
  | Ev.setNoiseSuppression _ => true
  | Ev.setAutomaticGainControl _ => true
  | Ev.setOpusEncoderEnableFEC _ => true
  | Ev.setOpusBitrate _ => true
  | _ => false

/-- Event class: a routing mode request. -/
def isModeEv : Ev → Bool
  | Ev.setMode _ => true
  | _ => false

/-- Event class: a registry search. -/
def isDiscoveryEv : Ev → Bool
  | Ev.discovery _ => true
  | _ => false

/-- Event class: the wired headset query. -/
def isHeadsetQEv : Ev → Bool
  | Ev.isHeadsetConnectedQ => true
  | _ => false

/-- Discovery events allowed after load: only the two searches that
preferStereoOutput performs. -/
def discoveryOnlyStereo : Ev → Bool
  | Ev.discovery ps =>
      ps == ["setChannelCount", "setSampleRate"] || ps == ["setOutputConfig"]
  | _ => true

/- ===================================================================
   Part 4: the join and leave wrappers
   (index.ts lines 172-193 explicit pair, lines 199-220 generic pair;
   the two pairs install textually identical wrapper bodies).

   A wrapper body is an async function around the original method; its
   only interaction with the original is awaiting its promise, so the
   body is embedded as a function of the settled outcome of the
   original, returning the outcome the wrapper settles with together
   with the ordered trace of policy hook invocations it performs.
   =================================================================== -/

/-- A policy hook invocation performed by a wrapper, tagged with the
position in the wrapper body that performed it. -/
inductive HookEv where
  | callStart
  | callEndInTry
  | callEndInFinally
deriving DecidableEq

/-- Whether a hook invocation is a call-end policy action. -/
def isCallEnd : HookEv → Bool
  | HookEv.callEndInTry => true
  | HookEv.callEndInFinally => true
  | HookEv.callStart => false

/-- Whether a hook invocation is a call-start policy action. -/
def isCallStart : HookEv → Bool
  | HookEv.callStart => true
  | _ => false

/-- The join wrapper body (lines 174-178 and 201-205): await the
original, then run the call-start policy, then return the original
result; a rejection of the original rethrows before the hook. -/
def joinWrapperRun {E A : Type} (orig : Except E A) : Except E A × List HookEv :=
  match orig with
  | Except.ok res => (Except.ok res, [HookEv.callStart])
  | Except.error e => (Except.error e, [])

/-- The leave wrapper body (lines 183-191 and 210-218): inside a try
block, await the original, run the call-end policy and return the
result; the finally block runs the call-end policy once more on every
exit, including exit by a rejection of the original. -/
def leaveWrapperRun {E A : Type} (orig : Except E A) : Except E A × List HookEv :=
  let tryPart : Except E A × List HookEv :=
    match orig with
    | Except.ok res => (Except.ok res, [HookEv.callEndInTry])
    | Except.error e => (Except.error e, [])
  (tryPart.1, tryPart.2 ++ [HookEv.callEndInFinally])

/- ===================================================================
   Part 5: monkeyPatch and patchVoiceJoinLeave as method tables
   (index.ts lines 7-23 and 167-222).

   The methods of the voice connection object are embedded as a total
   table from method names to method references; reference identity is
   equality in the reference type.
   =================================================================== -/

/-- The method slots of an object: a table from names to references. -/
def MethodTable (A : Type) : Type := String → A

/-- What monkeyPatch (lines 11-23) produces: the table after the
in-place replacement, and the zero-argument revert, which writes the
captured original reference back into the slot of whatever table it is
applied to. -/
structure InstalledPatch (A : Type) where
  patched : MethodTable A
  revert : MethodTable A → MethodTable A

/-- monkeyPatch: capture the current reference, store the wrapped one,
return a revert that restores the captured one. -/
def monkeyPatch {A : Type} (obj : MethodTable A) (method : String)
    (patcher : A → A) : InstalledPatch A :=
  { patched := fun k => if k = method then patcher (obj method) else obj k
    revert := fun cur => fun k => if k = method then obj method else cur k }

/-- The voice connection object as seen by patchVoiceJoinLeave: its
method table and the four membership tests of lines 171 and 198. -/
structure VCModel (A : Type) where
  table : MethodTable A
  hasJoinCall : Bool
  hasLeaveCall : Bool
  hasJoin : Bool
  hasLeave : Bool

/-- patchVoiceJoinLeave (lines 167-222) on a bound voice connection:
prefer the explicit joinCall and leaveCall pair, fall back to the
generic join and leave pair, else patch nothing.  Returns the final
table and the installed reverts in push order.  (When the voice
connection is unbound the function returns before patching anything;
that case installs no patches and is covered by the else branch with
both membership pairs false.) -/
def patchVoiceJoinLeave {A : Type} (vc : VCModel A) (wrapJoin wrapLeave : A → A) :
    MethodTable A × List (MethodTable A → MethodTable A) :=
  if vc.hasJoinCall && vc.hasLeaveCall then
    let p1 := monkeyPatch vc.table "joinCall" wrapJoin
    let p2 := monkeyPatch p1.patched "leaveCall" wrapLeave
    (p2.patched, [p1.revert, p2.revert])
  else if vc.hasJoin && vc.hasLeave then
    let p1 := monkeyPatch vc.table "join" wrapJoin
    let p2 := monkeyPatch p1.patched "leave" wrapLeave
    (p2.patched, [p1.revert, p2.revert])
  else (vc.table, [])

/-- Running a list of reverts in order against a table, each one
mutating the shared object in turn. -/
def applyReverts {A : Type} (revs : List (MethodTable A → MethodTable A))
    (t : MethodTable A) : MethodTable A :=
  revs.foldl (fun acc r => r acc) t

/- ===================================================================
   Part 6: the patch list and onUnload
   (index.ts line 9 and lines 250-255).
   =================================================================== -/

/-- An installed revert as the unload loop sees it: an identity for
the trace, and whether invoking it throws. -/
structure RevertRec where
  rid : Nat
  throws : Bool
deriving DecidableEq

/-- Invoking one revert: it runs (contributing its identity to the
trace) and reports whether it threw. -/
def execRevert (r : RevertRec) : List Nat × Bool :=
  ([r.rid], r.throws)

/-- The unload loop over the spliced-out patch list (line 252): each
revert is invoked inside its own try block; the catch discards the
throw report, so the loop always continues with the rest. -/
def runReverts : List RevertRec → List Nat
  | [] => []
  | r :: rs =>
    let step := execRevert r
    step.1 ++ runReverts rs

/-- The plugin patch state: the module-level patches array and the
trace of revert invocations performed so far. -/
structure PluginPatchState where
  patches : List RevertRec
  executed : List Nat
deriving DecidableEq

/-- onUnload (lines 250-255), restricted to its patch bookkeeping:
splice empties the patches array and the loop invokes every spliced-out
revert.  (The remaining two statements, stopping the watchdog and the
best-effort call-end policy run, do not touch the patch list.) -/
def onUnload (s : PluginPatchState) : PluginPatchState :=
  { patches := [], executed := s.executed ++ runReverts s.patches }

/- ===================================================================
   Part 7: concrete inputs used by counterexamples and evaluations.
   =================================================================== -/

/-- A module record whose exports accessor throws. -/
def throwMod : ModRec := ModRec.mrec (Except.error ()) EVal.enull

/-- A registry whose array access point holds exactly the throwing
module. -/
def throwingRegistryEnv : GlobalEnv :=
  { gModules := RegCandidate.arr [throwMod]
    rGetModules := RegCandidate.absent
    rModules := RegCandidate.absent
    cModules := RegCandidate.absent }

/-- A global object on which every registry access point is missing. -/
def emptyGlobal : GlobalEnv :=
  { gModules := RegCandidate.absent
    rGetModules := RegCandidate.absent
    rModules := RegCandidate.absent
    cModules := RegCandidate.absent }

/-- An export object whose own property set is the singleton foo but
which, like every plain JavaScript object, inherits toString through
its prototype chain. -/
def protoObj : EVal := EVal.eobj ["foo"] ["toString"] EVal.enull none none

/-- A registry containing one well-behaved module exporting protoObj. -/
def protoRegistry : List ModRec := [ModRec.mrec (Except.ok protoObj) EVal.enull]

/-- A capability binding with only the attenuation store bound. -/
def envAttOnly : Env :=
  { voiceStore := none
    mediaEngine := none
    attenuationStore := some { hasSetAttenuation := true }
    audioManager := none
    deviceManager := none
    stereoPrimary := none
    stereoFallback := none }

/-- A capability binding whose voice store is bound, answers the
isInCall query, and reports not in a call; nothing else is bound. -/
def envIdleVoice : Env :=
  { voiceStore := some { hasIsInCall := true, inCall := false }
    mediaEngine := none
    attenuationStore := none
    audioManager := none
    deviceManager := none
    stereoPrimary := none
    stereoFallback := none }

/-- A capability binding whose voice store is bound and reports being
in a call; nothing else is bound. -/
def envInCallVoice : Env :=
  { voiceStore := some { hasIsInCall := true, inCall := true }
    mediaEngine := none
    attenuationStore := none
    audioManager := none
    deviceManager := none
    stereoPrimary := none
    stereoFallback := none }

/- ===================================================================
   Helper lemmas.
   =================================================================== -/

/-- Monotonicity of the boolean all quantifier along a pointwise
implication. -/
theorem list_all_mono {A : Type} (p q : A → Bool) (h : ∀ a, p a = true → q a = true) :
    ∀ l : List A, l.all p = true → l.all q = true := by
  intro l hl
  simp only [List.all_eq_true] at hl ⊢
  exact fun a ha => h a (hl a ha)

/-- The unload loop invokes exactly the installed reverts, in order,
whether or not any of them throws. -/
theorem runReverts_eq_map : ∀ ps : List RevertRec, runReverts ps = ps.map RevertRec.rid := by
  intro ps
  induction ps with
  | nil => rfl
  | cons r rs ih => simp [runReverts, execRevert, ih]

/- ===================================================================
   Claim theorems.
   =================================================================== -/

/-- Claim C1 is refuted by the code: the presentation layer and the
policy engine do not share one settings instance.  The presentation
update writes the flag into the global object of settings.tsx, the
policy engine keeps reading the module-local object of index.ts, which
still holds the default; at the next decision point the engine still
acts on the stale value (here: it still requests zero attenuation after
the user switched disableAttenuation off). -/
theorem C1_settings_not_shared :
    (presentationUpd initialProcess SettingKey.disableAttenuation false).uiSettings.disableAttenuation
        = false
  ∧ (engineReads (presentationUpd initialProcess SettingKey.disableAttenuation false)).disableAttenuation
        = true
  ∧ Ev.setAttenuation 0 ∈
      onCallStart envAttOnly
        (engineReads (presentationUpd initialProcess SettingKey.disableAttenuation false)) := by
  refine ⟨rfl, rfl, ?_⟩
  decide

/-- Claim C2: for the wrapped leaveCall and the identical generic
leave fallback, a rejection of the original runs the call-end policy
action exactly once, through the finally block, and the rejection
propagates; a resolution runs the call-end action after the original
and a second time in the finally block, and the wrapper returns the
original result. -/
theorem C2_leave_wrapper_call_end (E A : Type) (e : E) (v : A) :
    leaveWrapperRun (Except.error e : Except E A)
        = (Except.error e, [HookEv.callEndInFinally])
  ∧ (leaveWrapperRun (Except.error e : Except E A)).2.countP isCallEnd = 1
  ∧ leaveWrapperRun (Except.ok v : Except E A)
        = (Except.ok v, [HookEv.callEndInTry, HookEv.callEndInFinally])
  ∧ (leaveWrapperRun (Except.ok v : Except E A)).2.countP isCallEnd = 2 :=
  ⟨rfl, rfl, rfl, rfl⟩

/-- Claim C3: one unload invokes every installed revert exactly once,
in order, regardless of which reverts throw; it empties the patch
collection, and a second unload is the identity, so no revert ever runs
twice however many times onUnload is called. -/
theorem C3_unload_reverts_once (ps : List RevertRec) (ex : List Nat) :
    (onUnload ⟨ps, ex⟩).executed = ex ++ ps.map RevertRec.rid
  ∧ (onUnload ⟨ps, ex⟩).patches = []
  ∧ onUnload (onUnload ⟨ps, ex⟩) = onUnload ⟨ps, ex⟩ := by
  refine ⟨?_, rfl, ?_⟩
  · show ex ++ runReverts ps = ex ++ ps.map RevertRec.rid
    rw [runReverts_eq_map]
  · show PluginPatchState.mk [] ((ex ++ runReverts ps) ++ runReverts [])
        = PluginPatchState.mk [] (ex ++ runReverts ps)
    simp [runReverts]

/-- Claim C4: for every object, method name and wrapper, the revert
returned by monkeyPatch writes the exact captured original reference
back into the patched slot; consequently, in every branch of
patchVoiceJoinLeave (explicit joinCall and leaveCall pair, generic join
and leave fallback, or nothing bound) running the installed reverts
restores the original method table slot for slot. -/
theorem C4_patch_revert_roundtrip :
    (∀ (A : Type) (obj : MethodTable A) (method : String) (patcher : A → A) (k : String),
      (monkeyPatch obj method patcher).revert (monkeyPatch obj method patcher).patched k
        = obj k)
  ∧ (∀ (A : Type) (vc : VCModel A) (wrapJoin wrapLeave : A → A) (k : String),
      applyReverts (patchVoiceJoinLeave vc wrapJoin wrapLeave).2
          (patchVoiceJoinLeave vc wrapJoin wrapLeave).1 k
        = vc.table k) := by
  constructor
  · intro A obj method patcher k
    by_cases h : k = method <;> simp [monkeyPatch, h]
  · intro A vc wj wl k
    unfold patchVoiceJoinLeave
    by_cases h1 : vc.hasJoinCall && vc.hasLeaveCall
    · simp only [h1, if_true]
      by_cases hk1 : k = "leaveCall" <;> by_cases hk2 : k = "joinCall" <;>
        simp [applyReverts, monkeyPatch, hk1, hk2]
    · simp only [h1, Bool.false_eq_true, if_false]
      by_cases h2 : vc.hasJoin && vc.hasLeave
      · simp only [h2, if_true]
        by_cases hk1 : k = "leave" <;> by_cases hk2 : k = "join" <;>
          simp [applyReverts, monkeyPatch, hk1, hk2]
      · simp [h2, applyReverts]

/-- Equation: one step of the findByProps scan. -/
theorem findByPropsList_cons (props : List String) (m : ModRec) (rest : List ModRec) :
    findByPropsList props (m :: rest)
      = match fbpBody props m with
        | Except.error _ => findByPropsList props rest
        | Except.ok (some v) => Except.ok (some v)
        | Except.ok none => findByPropsList props rest := rfl

/-- Equation: one step of the spec-side scan. -/
theorem specSearchWith_cons (qual : List String → EVal → Bool) (props : List String)
    (m : ModRec) (rest : List ModRec) :
    specSearchWith qual props (m :: rest)
      = match getExp m with
        | Except.error _ => specSearchWith qual props rest
        | Except.ok exp =>
          match specCandidate qual props exp with
          | some v => some v
          | none => specSearchWith qual props rest := rfl

/-- The per-module candidate of the code coincides with the spec-side
candidate under the membership-operator qualification. -/
theorem codeCandidate_eq_spec (props : List String) (exp : EVal) :
    codeCandidate props exp = specCandidate hasAllIn props exp := rfl

/-- Claim C5 is refuted on findByDisplayName: a registry entry whose
exports accessor throws makes findByDisplayName itself throw, because
its scan, unlike the findByProps scan, has no try block. -/
theorem C5_cex_displayname_throws :
    findByDisplayName "X" throwingRegistryEnv = Except.error () := rfl

/-- Claim C5, amended: findByProps never raises for any registry
content, and a module whose accessor throws is caught and skipped;
both locators return absent on an unavailable or empty registry; but
findByDisplayName propagates an exception thrown by a module accessor
instead of skipping the module. -/
theorem C5_locator_error_tolerance :
    (∀ (props : List String) (mods : List ModRec),
      ∃ r, findByPropsList props mods = Except.ok r)
  ∧ (∀ (props : List String) (v : EVal) (rest : List ModRec),
      findByPropsList props (ModRec.mrec (Except.error ()) v :: rest)
        = findByPropsList props rest)
  ∧ (∀ props : List String, findByProps props emptyGlobal = Except.ok none)
  ∧ (∀ nm : String, findByDisplayName nm emptyGlobal = Except.ok none)
  ∧ (∀ (nm : String) (v : EVal) (rest : List ModRec),
      findByDisplayNameList nm (ModRec.mrec (Except.error ()) v :: rest)
        = Except.error ()) := by
  refine ⟨?_, fun _ _ _ => rfl, fun _ => rfl, fun _ => rfl, fun _ _ _ => rfl⟩
  intro props mods
  induction mods with
  | nil => exact ⟨none, rfl⟩
  | cons m rest ih =>
    rw [findByPropsList_cons]
    cases h : fbpBody props m with
    | error u => simpa [h] using ih
    | ok o =>
      cases o with
      | some v => exact ⟨some v, by simp [h]⟩
      | none => simpa [h] using ih

/-- Claim C6 is refuted as stated: the code tests required members with
the JavaScript membership operator, which also sees inherited
properties, not with the own property set.  A registry whose only
export owns just foo but inherits toString makes findByProps return
that export for the required member toString, while the first export
whose own property set contains toString does not exist. -/
theorem C6_cex_inherited_member :
    findByPropsList ["toString"] protoRegistry
        ≠ Except.ok (specOwnFirst ["toString"] protoRegistry)
  ∧ findByPropsList ["toString"] protoRegistry = Except.ok (some protoObj)
  ∧ specOwnFirst ["toString"] protoRegistry = none := by
  refine ⟨?_, rfl, rfl⟩
  intro h
  have h1 : findByPropsList ["toString"] protoRegistry = Except.ok (some protoObj) := rfl
  have h2 : specOwnFirst ["toString"] protoRegistry = none := rfl
  rw [h1, h2] at h
  simp at h

/-- Claim C6, amended: for every registry and required-member set,
findByProps returns exactly the first export in scan order — or its
default sub-object — whose property set as seen by the JavaScript
membership operator (own or inherited) is a superset of the required
members, skipping modules whose accessor throws, and absent when no
export qualifies. -/
theorem C6_first_match_refinement (props : List String) (mods : List ModRec) :
    findByPropsList props mods = Except.ok (specInFirst props mods) := by
  induction mods with
  | nil => rfl
  | cons m rest ih =>
    rw [findByPropsList_cons]
    show _ = Except.ok (specSearchWith hasAllIn props (m :: rest))
    rw [specSearchWith_cons]
    cases h : getExp m with
    | error u => simp only [fbpBody, h]; exact ih
    | ok exp =>
      simp only [fbpBody, h, codeCandidate_eq_spec]
      cases hc : specCandidate hasAllIn props exp with
      | some v => simp only [hc]
      | none => simp only [hc]; exact ih


/-- Conjunction introduction for the boolean all quantifier. -/
theorem list_all_and {A : Type} (p q : A → Bool) (l : List A)
    (hp : l.all p = true) (hq : l.all q = true) :
    l.all (fun a => p a && q a) = true := by
  simp only [List.all_eq_true] at *
  exact fun a ha => by simp [hp a ha, hq a ha]

/-- Introduction for the boolean all quantifier on a cons cell. -/
theorem list_all_cons_intro {A : Type} (p : A → Bool) (x : A) (l : List A)
    (hx : p x = true) (hl : l.all p = true) : (x :: l).all p = true := by
  rw [List.all_cons, hx, hl]
  rfl

/-- Introduction for the boolean all quantifier on an append. -/
theorem list_all_append_intro {A : Type} (p : A → Bool) (l1 l2 : List A)
    (h1 : l1.all p = true) (h2 : l2.all p = true) : (l1 ++ l2).all p = true := by
  rw [List.all_append, h1, h2]
  rfl

/-- Every event of the attenuation action is an attenuation request. -/
theorem duck_class (att : Option AttCap) :
    (ensureMediaStreamNotDucked att).all isAttEv = true := by
  cases att with
  | none => rfl
  | some a =>
    rcases a with ⟨h⟩
    cases h <;> rfl

/-- Every event of the guarded player calls is a stereo output request. -/
theorem playerCalls_class (p : StereoCap) :
    (playerCalls p).all isStereoSetEv = true := by
  rcases p with ⟨hc, ht, hs⟩
  cases hc <;> cases ht <;> cases hs <;> rfl

/-- Every event of the stereo action is a registry search or a stereo
output request. -/
theorem stereo_class (sp sf : Option StereoCap) :
    (preferStereoOutput sp sf).all (fun e => isDiscoveryEv e || isStereoSetEv e) = true := by
  have hp : ∀ p : StereoCap,
      (playerCalls p).all (fun e => isDiscoveryEv e || isStereoSetEv e) = true :=
    fun p => list_all_mono _ _
      (fun e he => by cases e <;> simp_all [isStereoSetEv, isDiscoveryEv]) _
      (playerCalls_class p)
  cases sp with
  | some p => exact list_all_cons_intro _ _ _ rfl (hp p)
  | none =>
    cases sf with
    | none => rfl
    | some p => exact list_all_cons_intro _ _ _ rfl (list_all_cons_intro _ _ _ rfl (hp p))

/-- Step five of the microphone action only emits mic events. -/
theorem micStep5_class (m : MediaCap) : (micStep5 m).all isMicEv = true := by
  unfold micStep5
  split <;> rfl

/-- Step four of the microphone action only emits mic events. -/
theorem micStep4_class (m : MediaCap) : (micStep4 m).all isMicEv = true := by
  unfold micStep4
  split
  · refine list_all_cons_intro _ _ _ rfl ?_
    split
    · rfl
    · exact micStep5_class m
  · exact micStep5_class m

/-- Step three of the microphone action only emits mic events. -/
theorem micStep3_class (m : MediaCap) : (micStep3 m).all isMicEv = true := by
  unfold micStep3
  split
  · refine list_all_cons_intro _ _ _ rfl ?_
    split
    · rfl
    · exact micStep4_class m
  · exact micStep4_class m

/-- Step two of the microphone action only emits mic events. -/
theorem micStep2_class (m : MediaCap) : (micStep2 m).all isMicEv = true := by
  unfold micStep2
  split
  · refine list_all_cons_intro _ _ _ rfl ?_
    split
    · rfl
    · exact micStep3_class m
  · exact micStep3_class m

/-- Step one of the microphone action only emits mic events. -/
theorem micStep1_class (m : MediaCap) : (micStep1 m).all isMicEv = true := by
  unfold micStep1
  split
  · refine list_all_cons_intro _ _ _ rfl ?_
    split
    · rfl
    · exact micStep2_class m
  · exact micStep2_class m

/-- Every event of the microphone action is a mic processing change. -/
theorem mic_class (me : Option MediaCap) :
    (relaxMicProcessing me).all isMicEv = true := by
  cases me with
  | none => rfl
  | some m => exact micStep1_class m

/-- Every event of the routing action is a routing mode request. -/
theorem mode_class (am : Option AMCap) :
    (safeSetAudioModeNormal am).all isModeEv = true := by
  cases am with
  | none => rfl
  | some a =>
    rcases a with ⟨h⟩
    cases h <;> rfl

/-- Every event of the guarded routing branch is the wired query or a
routing mode request. -/
theorem wired_class (dm : Option DevCap) (am : Option AMCap) :
    (wiredModeBranch dm am).all (fun e => isHeadsetQEv e || isModeEv e) = true := by
  unfold wiredModeBranch
  refine list_all_append_intro _ _ _ ?_ ?_
  · rcases dm with _ | ⟨h, t, hd⟩
    · rfl
    · cases h <;> rfl
  · split
    · exact list_all_mono _ _
        (fun e he => by cases e <;> simp_all [isModeEv, isHeadsetQEv]) _ (mode_class am)
    · rfl

/-- The stereo action performs no attenuation request. -/
theorem stereo_no_att (sp sf : Option StereoCap) :
    (preferStereoOutput sp sf).all (fun e => !isAttEv e) = true :=
  list_all_mono _ _
    (fun e he => by cases e <;> simp_all [isDiscoveryEv, isStereoSetEv, isAttEv]) _
    (stereo_class sp sf)

/-- The stereo action performs no mic processing change. -/
theorem stereo_no_mic (sp sf : Option StereoCap) :
    (preferStereoOutput sp sf).all (fun e => !isMicEv e) = true :=
  list_all_mono _ _
    (fun e he => by cases e <;> simp_all [isDiscoveryEv, isStereoSetEv, isMicEv]) _
    (stereo_class sp sf)

/-- The stereo action performs no routing mode request. -/
theorem stereo_no_mode (sp sf : Option StereoCap) :
    (preferStereoOutput sp sf).all (fun e => !isModeEv e) = true :=
  list_all_mono _ _
    (fun e he => by cases e <;> simp_all [isDiscoveryEv, isStereoSetEv, isModeEv]) _
    (stereo_class sp sf)

/-- The attenuation action performs no stereo output request. -/
theorem duck_no_stereo (att : Option AttCap) :
    (ensureMediaStreamNotDucked att).all (fun e => !isStereoSetEv e) = true :=
  list_all_mono _ _
    (fun e he => by cases e <;> simp_all [isAttEv, isStereoSetEv]) _ (duck_class att)

/-- The attenuation action performs no mic processing change. -/
theorem duck_no_mic (att : Option AttCap) :
    (ensureMediaStreamNotDucked att).all (fun e => !isMicEv e) = true :=
  list_all_mono _ _
    (fun e he => by cases e <;> simp_all [isAttEv, isMicEv]) _ (duck_class att)

/-- The attenuation action performs no routing mode request. -/
theorem duck_no_mode (att : Option AttCap) :
    (ensureMediaStreamNotDucked att).all (fun e => !isModeEv e) = true :=
  list_all_mono _ _
    (fun e he => by cases e <;> simp_all [isAttEv, isModeEv]) _ (duck_class att)

/-- The microphone action performs no attenuation request. -/
theorem mic_no_att (me : Option MediaCap) :
    (relaxMicProcessing me).all (fun e => !isAttEv e) = true :=
  list_all_mono _ _
    (fun e he => by cases e <;> simp_all [isMicEv, isAttEv]) _ (mic_class me)

/-- The microphone action performs no stereo output request. -/
theorem mic_no_stereo (me : Option MediaCap) :
    (relaxMicProcessing me).all (fun e => !isStereoSetEv e) = true :=
  list_all_mono _ _
    (fun e he => by cases e <;> simp_all [isMicEv, isStereoSetEv]) _ (mic_class me)

/-- The microphone action performs no routing mode request. -/
theorem mic_no_mode (me : Option MediaCap) :
    (relaxMicProcessing me).all (fun e => !isModeEv e) = true :=
  list_all_mono _ _
    (fun e he => by cases e <;> simp_all [isMicEv, isModeEv]) _ (mic_class me)

/-- The routing branch performs no attenuation request. -/
theorem wired_no_att (dm : Option DevCap) (am : Option AMCap) :
    (wiredModeBranch dm am).all (fun e => !isAttEv e) = true :=
  list_all_mono _ _
    (fun e he => by cases e <;> simp_all [isHeadsetQEv, isModeEv, isAttEv]) _
    (wired_class dm am)

/-- The routing branch performs no stereo output request. -/
theorem wired_no_stereo (dm : Option DevCap) (am : Option AMCap) :
    (wiredModeBranch dm am).all (fun e => !isStereoSetEv e) = true :=
  list_all_mono _ _
    (fun e he => by cases e <;> simp_all [isHeadsetQEv, isModeEv, isStereoSetEv]) _
    (wired_class dm am)

/-- The routing branch performs no mic processing change. -/
theorem wired_no_mic (dm : Option DevCap) (am : Option AMCap) :
    (wiredModeBranch dm am).all (fun e => !isMicEv e) = true :=
  list_all_mono _ _
    (fun e he => by cases e <;> simp_all [isHeadsetQEv, isModeEv, isMicEv]) _
    (wired_class dm am)

/-- The attenuation action performs no registry search. -/
theorem duck_disc_ok (att : Option AttCap) :
    (ensureMediaStreamNotDucked att).all discoveryOnlyStereo = true :=
  list_all_mono _ _
    (fun e he => by cases e <;> simp_all [isAttEv, discoveryOnlyStereo]) _ (duck_class att)

/-- The microphone action performs no registry search. -/
theorem mic_disc_ok (me : Option MediaCap) :
    (relaxMicProcessing me).all discoveryOnlyStereo = true :=
  list_all_mono _ _
    (fun e he => by cases e <;> simp_all [isMicEv, discoveryOnlyStereo]) _ (mic_class me)

/-- The routing branch performs no registry search. -/
theorem wired_disc_ok (dm : Option DevCap) (am : Option AMCap) :
    (wiredModeBranch dm am).all discoveryOnlyStereo = true :=
  list_all_mono _ _
    (fun e he => by cases e <;> simp_all [isHeadsetQEv, isModeEv, discoveryOnlyStereo]) _
    (wired_class dm am)

/-- The only registry searches the stereo action performs are its own
two lookups. -/
theorem stereo_disc_ok (sp sf : Option StereoCap) :
    (preferStereoOutput sp sf).all discoveryOnlyStereo = true := by
  have hp : ∀ p : StereoCap, (playerCalls p).all discoveryOnlyStereo = true :=
    fun p => list_all_mono _ _
      (fun e he => by cases e <;> simp_all [isStereoSetEv, discoveryOnlyStereo]) _
      (playerCalls_class p)
  cases sp with
  | some p => exact list_all_cons_intro _ _ _ rfl (hp p)
  | none =>
    cases sf with
    | none => rfl
    | some p => exact list_all_cons_intro _ _ _ rfl (list_all_cons_intro _ _ _ rfl (hp p))

/-- Call start with attenuation disabled performs no attenuation
request. -/
theorem onCallStart_no_att (env : Env) (a b c d : Bool) :
    (onCallStart env ⟨a, b, false, c, d⟩).all (fun e => !isAttEv e) = true := by
  unfold onCallStart
  refine list_all_append_intro _ _ _
    (list_all_append_intro _ _ _ (list_all_append_intro _ _ _ ?_ ?_) ?_) ?_
  · rfl
  · cases b with
    | false => rfl
    | true => exact stereo_no_att _ _
  · cases c with
    | false => rfl
    | true => exact mic_no_att _
  · cases a with
    | false => rfl
    | true => exact wired_no_att _ _

/-- Call start with stereo keeping disabled performs no stereo output
request. -/
theorem onCallStart_no_stereo (env : Env) (a b c d : Bool) :
    (onCallStart env ⟨a, false, b, c, d⟩).all (fun e => !isStereoSetEv e) = true := by
  unfold onCallStart
  refine list_all_append_intro _ _ _
    (list_all_append_intro _ _ _ (list_all_append_intro _ _ _ ?_ ?_) ?_) ?_
  · cases b with
    | false => rfl
    | true => exact duck_no_stereo _
  · rfl
  · cases c with
    | false => rfl
    | true => exact mic_no_stereo _
  · cases a with
    | false => rfl
    | true => exact wired_no_stereo _ _

/-- Call start with mic relaxing disabled performs no mic processing
change. -/
theorem onCallStart_no_mic (env : Env) (a b c d : Bool) :
    (onCallStart env ⟨a, b, c, false, d⟩).all (fun e => !isMicEv e) = true := by
  unfold onCallStart
  refine list_all_append_intro _ _ _
    (list_all_append_intro _ _ _ (list_all_append_intro _ _ _ ?_ ?_) ?_) ?_
  · cases c with
    | false => rfl
    | true => exact duck_no_mic _
  · cases b with
    | false => rfl
    | true => exact stereo_no_mic _ _
  · rfl
  · cases a with
    | false => rfl
    | true => exact wired_no_mic _ _

/-- Call start with wired routing disabled performs no routing mode
request. -/
theorem onCallStart_no_mode (env : Env) (a b c d : Bool) :
    (onCallStart env ⟨false, a, b, c, d⟩).all (fun e => !isModeEv e) = true := by
  unfold onCallStart
  refine list_all_append_intro _ _ _
    (list_all_append_intro _ _ _ (list_all_append_intro _ _ _ ?_ ?_) ?_) ?_
  · cases b with
    | false => rfl
    | true => exact duck_no_mode _
  · cases a with
    | false => rfl
    | true => exact stereo_no_mode _ _
  · cases c with
    | false => rfl
    | true => exact mic_no_mode _
  · rfl

/-- A tick with attenuation disabled performs no attenuation request. -/
theorem tick_no_att (env : Env) (a b c d : Bool) :
    (watchdogTick env ⟨a, b, false, c, d⟩).all (fun e => !isAttEv e) = true := by
  rcases env with ⟨vs, me, att, am, dm, sp, sf⟩
  cases vs with
  | none => rfl
  | some v =>
    rcases v with ⟨hq, hin⟩
    cases hq with
    | false => rfl
    | true =>
      cases hin with
      | false => rfl
      | true =>
        unfold watchdogTick
        refine list_all_cons_intro _ _ _ rfl (list_all_append_intro _ _ _ rfl ?_)
        cases b with
        | false => rfl
        | true => exact stereo_no_att _ _

/-- A tick with stereo keeping disabled performs no stereo output
request. -/
theorem tick_no_stereo (env : Env) (a b c d : Bool) :
    (watchdogTick env ⟨a, false, b, c, d⟩).all (fun e => !isStereoSetEv e) = true := by
  rcases env with ⟨vs, me, att, am, dm, sp, sf⟩
  cases vs with
  | none => rfl
  | some v =>
    rcases v with ⟨hq, hin⟩
    cases hq with
    | false => rfl
    | true =>
      cases hin with
      | false => rfl
      | true =>
        unfold watchdogTick
        refine list_all_cons_intro _ _ _ rfl (list_all_append_intro _ _ _ ?_ rfl)
        cases b with
        | false => rfl
        | true => exact duck_no_stereo _

/-- No tick ever performs a mic processing change. -/
theorem tick_no_mic (env : Env) (s : SettingsMap) :
    (watchdogTick env s).all (fun e => !isMicEv e) = true := by
  rcases env with ⟨vs, me, att, am, dm, sp, sf⟩
  rcases s with ⟨f1, f2, f3, f4, f5⟩
  cases vs with
  | none => rfl
  | some v =>
    rcases v with ⟨hq, hin⟩
    cases hq with
    | false => rfl
    | true =>
      cases hin with
      | false => rfl
      | true =>
        unfold watchdogTick
        refine list_all_cons_intro _ _ _ rfl (list_all_append_intro _ _ _ ?_ ?_)
        · cases f3 with
          | false => rfl
          | true => exact duck_no_mic _
        · cases f2 with
          | false => rfl
          | true => exact stereo_no_mic _ _

/-- No tick ever performs a routing mode request. -/
theorem tick_no_mode (env : Env) (s : SettingsMap) :
    (watchdogTick env s).all (fun e => !isModeEv e) = true := by
  rcases env with ⟨vs, me, att, am, dm, sp, sf⟩
  rcases s with ⟨f1, f2, f3, f4, f5⟩
  cases vs with
  | none => rfl
  | some v =>
    rcases v with ⟨hq, hin⟩
    cases hq with
    | false => rfl
    | true =>
      cases hin with
      | false => rfl
      | true =>
        unfold watchdogTick
        refine list_all_cons_intro _ _ _ rfl (list_all_append_intro _ _ _ ?_ ?_)
        · cases f3 with
          | false => rfl
          | true => exact duck_no_mode _
        · cases f2 with
          | false => rfl
          | true => exact stereo_no_mode _ _

/-- The only registry searches a tick performs are the two stereo
lookups. -/
theorem tick_disc_ok (env : Env) (s : SettingsMap) :
    (watchdogTick env s).all discoveryOnlyStereo = true := by
  rcases env with ⟨vs, me, att, am, dm, sp, sf⟩
  rcases s with ⟨f1, f2, f3, f4, f5⟩
  cases vs with
  | none => rfl
  | some v =>
    rcases v with ⟨hq, hin⟩
    cases hq with
    | false => rfl
    | true =>
      cases hin with
      | false => rfl
      | true =>
        unfold watchdogTick
        refine list_all_cons_intro _ _ _ rfl (list_all_append_intro _ _ _ ?_ ?_)
        · cases f3 with
          | false => rfl
          | true => exact duck_disc_ok _
        · cases f2 with
          | false => rfl
          | true => exact stereo_disc_ok _ _

/-- The stereo action always performs its primary registry search. -/
theorem disc_mem_stereo (sp sf : Option StereoCap) :
    Ev.discovery ["setChannelCount", "setSampleRate"] ∈ preferStereoOutput sp sf := by
  cases sp with
  | some p => exact List.mem_cons_self _ _
  | none =>
    cases sf with
    | none => exact List.mem_cons_self _ _
    | some p => exact List.mem_cons_self _ _

/-- Claim C7: every policy action whose settings flag is off is not
invoked, neither at call start nor by the enforcement loop: no
attenuation request without disableAttenuation, no channel count or
sample rate request without keepStereoMedia, no mic processing change
without relaxMicDSP, and no routing mode request without
forceModeNormalOnWired. -/
theorem C7_disabled_flags_no_actions (env : Env) (a b c d : Bool) :
    ((onCallStart env ⟨a, b, false, c, d⟩).all (fun e => !isAttEv e) = true
      ∧ (watchdogTick env ⟨a, b, false, c, d⟩).all (fun e => !isAttEv e) = true)
  ∧ ((onCallStart env ⟨a, false, b, c, d⟩).all (fun e => !isStereoSetEv e) = true
      ∧ (watchdogTick env ⟨a, false, b, c, d⟩).all (fun e => !isStereoSetEv e) = true)
  ∧ ((onCallStart env ⟨a, b, c, false, d⟩).all (fun e => !isMicEv e) = true
      ∧ (watchdogTick env ⟨a, b, c, false, d⟩).all (fun e => !isMicEv e) = true)
  ∧ ((onCallStart env ⟨false, a, b, c, d⟩).all (fun e => !isModeEv e) = true
      ∧ (watchdogTick env ⟨false, a, b, c, d⟩).all (fun e => !isModeEv e) = true) :=
  ⟨⟨onCallStart_no_att env a b c d, tick_no_att env a b c d⟩,
   ⟨onCallStart_no_stereo env a b c d, tick_no_stereo env a b c d⟩,
   ⟨onCallStart_no_mic env a b c d, tick_no_mic env ⟨a, b, c, false, d⟩⟩,
   ⟨onCallStart_no_mode env a b c d, tick_no_mode env ⟨false, a, b, c, d⟩⟩⟩

/-- Claim C8 is refuted as stated: with the voice store bound and
reporting not in a call, the tick does perform one capability method
invocation, the isInCall query itself, so the trace is not empty. -/
theorem C8_cex_idle_tick_queries :
    watchdogTick envIdleVoice defaultSettings = [Ev.isInCallQ]
  ∧ watchdogTick envIdleVoice defaultSettings ≠ ([] : List Ev) := by
  refine ⟨rfl, ?_⟩
  decide

/-- Claim C8, amended: the loop period is fixed at 2000 milliseconds;
a tick with the voice store unbound, or bound without an isInCall
method, performs no capability method invocation at all; a tick whose
bound voice store reports not in a call performs exactly the voice
state query and nothing else; a tick during a call performs the query
followed by exactly the flag-guarded attenuation and stereo
re-applications; and no tick ever performs a mic processing change or
a routing mode request. -/
theorem C8_watchdog_behaviour :
    startWatchdog.periodMs = 2000
  ∧ (∀ (me : Option MediaCap) (att : Option AttCap) (am : Option AMCap)
       (dm : Option DevCap) (sp sf : Option StereoCap) (s : SettingsMap),
      watchdogTick ⟨none, me, att, am, dm, sp, sf⟩ s = [])
  ∧ (∀ (b : Bool) (me : Option MediaCap) (att : Option AttCap) (am : Option AMCap)
       (dm : Option DevCap) (sp sf : Option StereoCap) (s : SettingsMap),
      watchdogTick ⟨some ⟨false, b⟩, me, att, am, dm, sp, sf⟩ s = [])
  ∧ (∀ (me : Option MediaCap) (att : Option AttCap) (am : Option AMCap)
       (dm : Option DevCap) (sp sf : Option StereoCap) (s : SettingsMap),
      watchdogTick ⟨some ⟨true, false⟩, me, att, am, dm, sp, sf⟩ s = [Ev.isInCallQ])
  ∧ (∀ (me : Option MediaCap) (att : Option AttCap) (am : Option AMCap)
       (dm : Option DevCap) (sp sf : Option StereoCap) (s : SettingsMap),
      watchdogTick ⟨some ⟨true, true⟩, me, att, am, dm, sp, sf⟩ s
        = Ev.isInCallQ ::
            ((if s.disableAttenuation then ensureMediaStreamNotDucked att else []) ++
             (if s.keepStereoMedia then preferStereoOutput sp sf else [])))
  ∧ (∀ (env : Env) (s : SettingsMap),
      (watchdogTick env s).all (fun e => !isMicEv e && !isModeEv e) = true) := by
  refine ⟨rfl, fun _ _ _ _ _ _ _ => rfl, fun _ _ _ _ _ _ _ _ => rfl,
    fun _ _ _ _ _ _ _ => rfl, fun _ _ _ _ _ _ _ => rfl, ?_⟩
  intro env s
  exact list_all_and _ _ _ (tick_no_mic env s) (tick_no_mode env s)

/-- Claim C9 is refuted as stated: a loop tick after load does perform
registry discovery — with stereo keeping on and a call active, the tick
runs the stereo registry search again. -/
theorem C9_cex_tick_rediscovers :
    (watchdogTick envInCallVoice defaultSettings).any isDiscoveryEv = true
  ∧ Ev.discovery ["setChannelCount", "setSampleRate"]
      ∈ watchdogTick envInCallVoice defaultSettings := by
  constructor
  · decide
  · decide

/-- Claim C9, amended: all capability handles except the stereo output
control are bound once at load and never re-resolved — after load, the
only registry searches any policy action or tick performs are the two
stereo output lookups of preferStereoOutput; and that control is indeed
re-discovered on every enforcing tick: whenever the voice store reports
a call and keepStereoMedia is on, the tick contains the stereo registry
search. -/
theorem C9_discovery_only_stereo :
    (∀ (env : Env) (s : SettingsMap),
      (onCallStart env s).all discoveryOnlyStereo = true
      ∧ (watchdogTick env s).all discoveryOnlyStereo = true)
  ∧ (∀ (me : Option MediaCap) (att : Option AttCap) (am : Option AMCap)
       (dm : Option DevCap) (sp sf : Option StereoCap) (a c d e : Bool),
      Ev.discovery ["setChannelCount", "setSampleRate"] ∈
        watchdogTick ⟨some ⟨true, true⟩, me, att, am, dm, sp, sf⟩ ⟨a, true, c, d, e⟩) := by
  constructor
  · intro env s
    constructor
    · rcases s with ⟨f1, f2, f3, f4, f5⟩
      unfold onCallStart
      refine list_all_append_intro _ _ _
        (list_all_append_intro _ _ _ (list_all_append_intro _ _ _ ?_ ?_) ?_) ?_
      · cases f3 with
        | false => rfl
        | true => exact duck_disc_ok _
      · cases f2 with
        | false => rfl
        | true => exact stereo_disc_ok _ _
      · cases f4 with
        | false => rfl
        | true => exact mic_disc_ok _
      · cases f1 with
        | false => rfl
        | true => exact wired_disc_ok _ _
    · exact tick_disc_ok env s
  · intro me att am dm sp sf a c d e
    exact List.mem_cons_of_mem _ (List.mem_append_right _ (disc_mem_stereo sp sf))

/-- Claim C10: for the wrapped joinCall and the identical generic join
fallback, a rejection of the original never runs the call-start policy
and propagates unchanged, while a resolution runs the call-start policy
once and returns exactly the original result; there is no
guaranteed-cleanup path on join. -/
theorem C10_join_wrapper_passthrough (E A : Type) (e : E) (v : A) :
    joinWrapperRun (Except.error e : Except E A) = (Except.error e, [])
  ∧ (joinWrapperRun (Except.error e : Except E A)).2.countP isCallStart = 0
  ∧ joinWrapperRun (Except.ok v : Except E A) = (Except.ok v, [HookEv.callStart])
  ∧ (joinWrapperRun (Except.ok v : Except E A)).2.countP isCallStart = 1 :=
  ⟨rfl, rfl, rfl, rfl⟩
